import Mathlib

/-!
Shallow embedding of the targetWorkloadIds label-propagation controllers of
`pkg/controllers/user/targetworkloadservice/target_workload_service.go`
(rancher). The two reconcilers (`Controller.sync` on services and
`PodController.sync` on pods) and the shared in-memory registry
(`workloadServiceUUIDToDeploymentUUIDs`, a `sync.Map`) are modelled as pure
functions over an explicit world state. Go maps are modelled as association
lists with unique keys maintained by construction; a Go `nil` map is
distinguished from an empty map via `Option`, because `reflect.DeepEqual`
distinguishes them. The `sync.Map` iteration (`Range`) order is modelled as
the list order of the registry, since Go leaves it unspecified.
-/

set_option autoImplicit false

/-- A Go `map[string]string`, as an association list; lookup takes the first
binding, and maps built by this development keep keys unique. -/
abbrev LabelMap := List (String × String)

/-- Lookup in a label map (Go `m[k]` with the `ok` flag as `Option`). -/
def lget : LabelMap → String → Option String
  | [], _ => none
  | (k, v) :: t, q => if k = q then some v else lget t q

/-- Go `m[k] = v` on a map: replace the binding in place or append it. -/
def linsert : LabelMap → String → String → LabelMap
  | [], k, v => [(k, v)]
  | (k1, v1) :: t, k, v => if k1 = k then (k, v) :: t else (k1, v1) :: linsert t k v

/-- Go `for k, v := range src { dst[k] = v }`: overlay `src` onto `dst`,
entries of `src` winning (and, among duplicates in `src`, later ones). -/
def loverlay : LabelMap → LabelMap → LabelMap
  | dst, [] => dst
  | dst, (k, v) :: t => loverlay (linsert dst k v) t

/-- Lookup through a possibly-`nil` Go map. -/
def olget : Option LabelMap → String → Option String
  | none, _ => none
  | some m, q => lget m q

/-- Whether the (possibly nil) map holds exactly the pair `kv`. -/
def hasPairB (lbls : Option LabelMap) (kv : String × String) : Bool :=
  match olget lbls kv.1 with
  | some w => kv.2 == w
  | none => false

/-- Kubernetes set-selector match: every pair of `sel` is present in `lbls`
(this is what `labels.SelectorFromSet(set).Matches(labels)` computes; the
empty set matches everything). -/
def lsubsetO (sel : LabelMap) (lbls : Option LabelMap) : Bool :=
  sel.all (hasPairB lbls)

/-- Structural equality of two label maps as finite maps: same keys, same
value per key, independent of list order. For duplicate-free lists this is
what `reflect.DeepEqual` computes on the corresponding Go maps. -/
def mapEqb (a b : LabelMap) : Bool :=
  a.all (hasPairB (some b)) && b.all (hasPairB (some a))

/-- Go `reflect.DeepEqual(old, new)` where `old` may be a nil map and `new`
is always non-nil: a nil map is never `DeepEqual` to a non-nil one, even when
both are empty. -/
def deepEqualLabels (old : Option LabelMap) (new : LabelMap) : Bool :=
  match old with
  | none => false
  | some l => mapEqb l new

/-- Keys of a label map are pairwise distinct (always true of a Go map). -/
def keysNodupB : LabelMap → Bool
  | [] => true
  | (k, _) :: t => !((t.map Prod.fst).contains k) && keysNodupB t

/-- The fixed synthetic-label prefix `WorkloadIDLabelPrefix`. -/
def workloadIDLabel : String := "workloadID"

/-- Go `strings.HasPrefix(k, WorkloadIDLabelPrefix)`. -/
def hasWidPref (k : String) : Bool :=
  workloadIDLabel.toList.isPrefixOf k.toList

/-- Go `getServiceSelector`: `fmt.Sprintf("%s_%s", WorkloadIDLabelPrefix, name)`. -/
def getServiceSelector (serviceName : String) : String :=
  workloadIDLabel ++ "_" ++ serviceName

/-- Namespace part of a `namespace/name` key (Go `strings.Split(key, "/")[0]`). -/
def keyNs (key : String) : String :=
  String.mk (key.toList.takeWhile (fun c => c ≠ '/'))

/-- Name part of a `namespace/name` key (Go `strings.Split(key, "/")[1]`;
the Go code would fault on a key with no slash, which never arises since
controller keys are always `namespace/name`). -/
def keyName (key : String) : String :=
  String.mk (((key.toList.dropWhile (fun c => c ≠ '/')).drop 1).takeWhile (fun c => c ≠ '/'))

/-- A JSON value, as much of it as `encoding/json` decoding into `[]string`
can observe. -/
inductive Json where
  | str (s : String)
  | num (n : Int)
  | arr (elems : List Json)
  | other

/-- Model of Go `json.Unmarshal(data, &x)` for `x : []string`, applied to a
syntactically valid JSON value: per the `encoding/json` contract, a value of
the wrong element type inside an array is skipped (leaving the zero value
`""` in its slot) while decoding continues, and the first such mismatch is
reported as an error; a non-array top level is an error leaving the target
untouched (`nil`). The second component is the `err == nil` flag. -/
def unmarshalStringArray : Json → List String × Bool
  | .arr xs =>
    let rs := xs.map (fun j => match j with | .str s => (s, true) | _ => ("", false))
    (rs.map Prod.fst, rs.all Prod.snd)
  | _ => ([], false)

/-- The raw string value of an annotation, tracking exactly what the code
observes: emptiness, and the JSON parse (`none` = malformed text, on which
`json.Unmarshal` reports a syntax error and leaves the target untouched). -/
inductive AnnText where
  | emptyStr
  | text (parsed : Option Json)

/-- A service object (`corev1.Service`): the two annotations the controller
reads, the selector map (nil-able), and the deletion marker. -/
structure Service where
  ns : String
  name : String
  deleted : Bool
  targetWorkloadIdsAnn : Option AnnText
  noopAnn : Option String
  selector : Option LabelMap

/-- A workload as returned by the workload directory. -/
structure Workload where
  ns : String
  name : String
  selectorLabels : LabelMap
deriving DecidableEq

/-- Workload key `fmt.Sprintf("%s/%s", Namespace, Name)`. -/
def Workload.key (w : Workload) : String := w.ns ++ "/" ++ w.name

/-- A pod object: labels (nil-able Go map) and deletion marker. -/
structure Pod where
  ns : String
  name : String
  labels : Option LabelMap
  deleted : Bool
deriving DecidableEq

/-- The external stores and the workload directory, fixed during a sync. -/
structure World where
  workloads : List Workload
  services : List Service
  pods : List Pod
  resolveWorkload : String → Option Workload

/-- The shared `sync.Map` from service key to its set of workload keys; the
list order models the unspecified `Range` iteration order. -/
abbrev Registry := List (String × List String)

/-- Registry `Load`. -/
def regLoad : Registry → String → Option (List String)
  | [], _ => none
  | (k, v) :: t, q => if k = q then some v else regLoad t q

/-- Registry `Store` (full replace). -/
def regStore : Registry → String → List String → Registry
  | [], k, v => [(k, v)]
  | (k1, v1) :: t, k, v => if k1 = k then (k, v) :: t else (k1, v1) :: regStore t k v

/-- Registry `Delete`. -/
def regDelete (r : Registry) (k : String) : Registry :=
  r.filter (fun e => e.1 ≠ k)

/-- Insertion into a `map[string]bool` used as a set (Go `m[x] = true`). -/
def setInsert (xs : List String) (x : String) : List String :=
  if xs.contains x then xs else xs ++ [x]

/-- `podLister.List(ns, labels.SelectorFromSet(sel))`. -/
def listPods (pods : List Pod) (ns : String) (sel : LabelMap) : List Pod :=
  pods.filter (fun p => p.ns == ns && lsubsetO sel p.labels)

/-- `serviceLister.Get(ns, name)` (`none` models the not-found error). -/
def findService (svcs : List Service) (ns name : String) : Option Service :=
  svcs.find? (fun s => s.ns == ns && s.name == name)

/-- Find a pod in the store by namespace and name. -/
def findPod (pods : List Pod) (ns name : String) : Option Pod :=
  pods.find? (fun p => p.ns == ns && p.name == name)

/-- `services.Update`: replace the stored service with the same key. -/
def updateServiceIn (svcs : List Service) (s : Service) : List Service :=
  svcs.map (fun t => if t.ns == s.ns && t.name == s.name then s else t)

/-- `pods.Update`: replace the stored pod with the same key. -/
def updatePodIn (pods : List Pod) (p : Pod) : List Pod :=
  pods.map (fun q => if q.ns == p.ns && q.name == p.name then p else q)

/-- Apply a sequence of pod update calls to the pod store in order. -/
def applyPodCalls (pods : List Pod) (calls : List Pod) : List Pod :=
  calls.foldl updatePodIn pods

/-- Go `isWorkloadService`: read the `targetWorkloadIds` annotation; absent
or empty value, or `noop == "true"`, yields no ids; otherwise unmarshal the
value (on unmarshal error the error is only logged and whatever the partial
decode produced is returned). -/
def isWorkloadService (s : Service) : List String :=
  match s.targetWorkloadIdsAnn with
  | none => []
  | some .emptyStr => []
  | some (.text parsed) =>
    if s.noopAnn = some "true" then []
    else
      match parsed with
      | none => []
      | some j => (unmarshalStringArray j).1

/-- The service selector seen by the rest of the sync: `obj.Spec.Selector`,
with a nil map replaced by an empty one (Go line `obj.Spec.Selector =
map[string]string{}`). Note the synthetic key installed by `reconcilePods`
is written only to a deep copy sent to the store, so it is absent here
unless it was already stored on the object. -/
def svcSel0 (s : Service) : LabelMap := s.selector.getD []

/-- The loop body of `Controller.updatePods`: walk the declared workload
ids; a resolution failure is logged and skipped; for each resolved workload
accumulate its key and, scanning its member pods (by its selector labels in
its namespace, skipping deletion-marked pods), append the pod to the update
queue once per service-selector pair the pod is missing (the Go loop
appends inside the selector iteration, without a break). -/
def collectLoop (w : World) (sel : LabelMap) : List String → List String → List Pod → List String × List Pod
  | [], targets, queue => (targets, queue)
  | id :: t, targets, queue =>
    match w.resolveWorkload id with
    | none => collectLoop w sel t targets queue
    | some tw =>
      let pods := listPods w.pods tw.ns tw.selectorLabels
      let q2 := queue ++ (pods.filter (fun p => !p.deleted)).flatMap
        (fun p => (sel.filter (fun kv => !(hasPairB p.labels kv))).map (fun _ => p))
      collectLoop w sel t (setInsert targets (Workload.key tw)) q2

/-- Go `Controller.updatePods` up to the update calls: the computed target
workload key set and the queue `podsToUpdate`. -/
def Controller.updatePods (w : World) (sel : LabelMap) (ids : List String) : List String × List Pod :=
  collectLoop w sel ids [] []

/-- The payload of each `pods.Update` call issued by `Controller.updatePods`:
the queued pod with all of the service's selector pairs merged into its
labels. (A pod with a nil label map would make the Go code fault on the map
write; such a pod can only be queued when the selector is non-empty.) -/
def Controller.podCallsOf (w : World) (sel : LabelMap) (ids : List String) : List Pod :=
  (Controller.updatePods w sel ids).2.map
    (fun p => { p with labels := some (loverlay (p.labels.getD []) sel) })

/-- The target set computed by a participating sync. -/
def svcTargets (w : World) (s : Service) : List String :=
  (Controller.updatePods w (svcSel0 s) (isWorkloadService s)).1

/-- Go `Controller.updateServiceWorkloadPods`: parse the key, list the pods
of that namespace carrying the service's synthetic selector pair, and
enqueue each of them (returned as the list of enqueued (namespace, name)). -/
def updateServiceWorkloadPods (pods : List Pod) (key : String) : List (String × String) :=
  (listPods pods (keyNs key) [(getServiceSelector (keyName key), "true")]).map
    (fun p => (p.ns, p.name))

/-- Whether the sync must run the cleanup sweep: some workload key of the
previous registry entry is absent from the new target set. -/
def cleanupNeeded (w : World) (reg : Registry) (key : String) (s : Service) : Bool :=
  match regLoad reg key with
  | some old => old.any (fun wid => !((svcTargets w s).contains wid))
  | none => false

/-- Result of one `Controller.sync`: the stores and registry afterwards, the
pods enqueued by the cleanup sweep, the number of `services.Update` calls,
the sequence of `pods.Update` calls, and the `err == nil` flag. -/
structure SvcOut where
  services : List Service
  pods : List Pod
  registry : Registry
  enqueued : List (String × String)
  svcUpdateCount : Nat
  podCalls : List Pod
  ok : Bool

/-- The removal/tombstone path of `Controller.sync`. -/
def Controller.deletedPath (w : World) (reg : Registry) (key : String) : SvcOut :=
  { services := w.services, pods := w.pods, registry := regDelete reg key,
    enqueued := if (regLoad reg key).isSome then updateServiceWorkloadPods w.pods key else [],
    svcUpdateCount := 0, podCalls := [], ok := true }

/-- Go `Controller.sync`. A nil or deletion-marked object takes the removal
path. A non-participating service returns immediately (registry untouched).
Otherwise: install the synthetic selector term on the stored service if
missing (one update call; the in-memory object keeps its old selector),
resolve targets and issue the queued pod label merges, run the cleanup
sweep when the target set shrank, and store the new target set. -/
def Controller.sync (w : World) (reg : Registry) (key : String) (obj : Option Service) : SvcOut :=
  match obj with
  | none => Controller.deletedPath w reg key
  | some s =>
    if s.deleted then Controller.deletedPath w reg key
    else
      let ids := isWorkloadService s
      if ids.isEmpty then
        { services := w.services, pods := w.pods, registry := reg, enqueued := [],
          svcUpdateCount := 0, podCalls := [], ok := true }
      else
        let sel0 := svcSel0 s
        let selKey := getServiceSelector s.name
        let installed := (lget sel0 selKey).isSome
        let services1 :=
          if installed then w.services
          else updateServiceIn w.services { s with selector := some (linsert sel0 selKey "true") }
        let calls := Controller.podCallsOf w sel0 ids
        let pods1 := applyPodCalls w.pods calls
        let enq := if cleanupNeeded w reg key s then updateServiceWorkloadPods pods1 key else []
        { services := services1, pods := pods1,
          registry := regStore reg key (svcTargets w s), enqueued := enq,
          svcUpdateCount := if installed then 0 else 1, podCalls := calls, ok := true }

/-- Modelled from the spec: the Workload Directory's
`findMatchingLabels(namespace, labels)` (the repository's
`CommonController.GetWorkloadsMatchingLabels`, whose source is not under
src/): the workloads of the namespace whose selector labels all occur in
the given label set. -/
def workloadsMatchingLabels (ws : List Workload) (ns : String) (lbls : Option LabelMap) : List Workload :=
  ws.filter (fun d => d.ns == ns && lsubsetO d.selectorLabels lbls)

/-- The nested loop of `PodController.sync` that collects dependent service
keys: for each matched workload (in directory order), scan the registry
(`Range`, modelled as list order) and append every service key whose stored
set contains the workload's key. No deduplication, no sorting. -/
def collectServiceKeys (ds : List Workload) (reg : Registry) : List String :=
  ds.flatMap (fun d => (reg.filter (fun e => e.2.contains (Workload.key d))).map Prod.fst)

/-- The service-fetch-and-merge loop of `PodController.sync`: each collected
key is fetched via `serviceLister.Get(pod.Namespace, strings.Split(key,
"/")[1])` — the pod's own namespace with only the name part of the key — and
its selector pairs are merged into the accumulator (later services win);
the first failed fetch aborts with an error (`none`). -/
def fetchAndMerge (svcs : List Service) (podNs : String) : List String → LabelMap → Option LabelMap
  | [], acc => some acc
  | k :: t, acc =>
    match findService svcs podNs (keyName k) with
    | none => none
    | some sv => fetchAndMerge svcs podNs t (loverlay acc (sv.selector.getD []))

/-- The desired synthetic-label accumulator of one pod sync: the merge of
the selector maps of all collected dependent services, `none` on a fetch
failure. -/
def podDesired (w : World) (reg : Registry) (p : Pod) : Option LabelMap :=
  fetchAndMerge w.services p.ns
    (collectServiceKeys (workloadsMatchingLabels w.workloads p.ns p.labels) reg) []

/-- The label set `PodController.sync` rebuilds for a pod from the desired
map `wsl`: keep every existing label unless its key has the workloadID
prefix and is absent from `wsl`, then overlay all of `wsl`. -/
def recomputedLabels (p : Pod) (wsl : LabelMap) : LabelMap :=
  loverlay ((p.labels.getD []).filter
    (fun kv => !(hasWidPref kv.1) || (lget wsl kv.1).isSome)) wsl

/-- Result of one `PodController.sync`: the pod store afterwards, the
recomputed label set (when the sync got that far), the number of
`pods.Update` calls, and the `err == nil` flag. -/
structure PodOut where
  pods : List Pod
  newLabels : Option LabelMap
  updateCount : Nat
  ok : Bool
deriving DecidableEq

/-- Go `PodController.sync`. A nil or deletion-marked pod is a no-op. Match
workloads against the pod's labels, collect dependent service keys from the
registry, fetch each service and merge its selector pairs, rebuild the label
set (dropping `workloadID`-prefixed labels not in the desired set, keeping
everything else, then overlaying the desired pairs), and update the pod
unless `reflect.DeepEqual` finds the maps equal. -/
def PodController.sync (w : World) (reg : Registry) (obj : Option Pod) : PodOut :=
  match obj with
  | none => { pods := w.pods, newLabels := none, updateCount := 0, ok := true }
  | some p =>
    if p.deleted then { pods := w.pods, newLabels := none, updateCount := 0, ok := true }
    else
      match podDesired w reg p with
      | none => { pods := w.pods, newLabels := none, updateCount := 0, ok := false }
      | some wsl =>
        let nl := recomputedLabels p wsl
        if deepEqualLabels p.labels nl then
          { pods := w.pods, newLabels := some nl, updateCount := 0, ok := true }
        else
          { pods := updatePodIn w.pods { p with labels := some nl },
            newLabels := some nl, updateCount := 1, ok := true }

/-! Concrete states used by the individual claims. -/

/-- C1 scene: a live service with no annotations (not participating). -/
def c1Svc : Service := ⟨"n", "s", false, none, none, none⟩

/-- C1 scene: a world holding only that service. -/
def c1World : World := ⟨[], [c1Svc], [], fun _ => none⟩

/-- C1 scene: a registry that still holds an entry for the service. -/
def c1Reg : Registry := [("n/s", ["n/w"])]

/-- C2 scene: a workload matching the pod. -/
def c2Wk : Workload := ⟨"n", "w", [("app", "x")]⟩

/-- C2 scene: a second workload matching the pod. -/
def c2WkB : Workload := ⟨"n", "w2", [("app", "x")]⟩

/-- C2 scene: a service whose selector binds label l to 1. -/
def c2Svc1 : Service := ⟨"n", "s1", false, none, none, some [("l", "1")]⟩

/-- C2 scene: a service whose selector binds the same label l to 2. -/
def c2Svc2 : Service := ⟨"n", "s2", false, none, none, some [("l", "2")]⟩

/-- C2 scene: the reconciled pod. -/
def c2Pod : Pod := ⟨"n", "p", some [("app", "x")], false⟩

/-- C2 scene: the world. -/
def c2World : World := ⟨[c2Wk], [c2Svc1, c2Svc2], [c2Pod], fun _ => none⟩

/-- C2 scene: both services target the pod's workload, in one Range order. -/
def c2RegA : Registry := [("n/s1", ["n/w"]), ("n/s2", ["n/w"])]

/-- C2 scene: the same registry content in the reversed Range order. -/
def c2RegB : Registry := [("n/s2", ["n/w"]), ("n/s1", ["n/w"])]

/-- C3 scene: the target workload. -/
def c3Wk : Workload := ⟨"n", "w", [("m", "1")]⟩

/-- C3 scene: a member pod missing both selector pairs. -/
def c3Pod : Pod := ⟨"n", "q", some [("m", "1")], false⟩

/-- C3 scene: a service with a two-pair selector. -/
def c3Svc : Service :=
  ⟨"n", "s", false, some (.text (some (.arr [.str "wid"]))), none,
    some [("a", "1"), ("b", "2")]⟩

/-- C3 scene: the world. -/
def c3World : World :=
  ⟨[c3Wk], [c3Svc], [c3Pod], fun id => if id = "wid" then some c3Wk else none⟩

/-- C4 scene: workload A, still targeted after the shrink. -/
def c4WkA : Workload := ⟨"n", "a", [("aapp", "1")]⟩

/-- C4 scene: workload B, dropped by the shrink. -/
def c4WkB : Workload := ⟨"n", "b", [("bapp", "x")]⟩

/-- C4 scene: service S after the shrink, declaring only A; its synthetic
selector term is already installed. -/
def c4Svc : Service :=
  ⟨"n", "s", false, some (.text (some (.arr [.str "aid"]))), none,
    some [("workloadID_s", "true")]⟩

/-- C4 scene: pod P of workload B, carrying S's synthetic label. -/
def c4Pod : Pod := ⟨"n", "p", some [("bapp", "x"), ("workloadID_s", "true")], false⟩

/-- C4 scene: the world. -/
def c4World : World :=
  ⟨[c4WkA, c4WkB], [c4Svc], [c4Pod], fun id => if id = "aid" then some c4WkA else none⟩

/-- C4 scene: the registry before the shrink, holding both A and B. -/
def c4Reg : Registry := [("n/s", ["n/a", "n/b"])]

/-- C4 scene: the service sync after the shrink. -/
def c4Out : SvcOut := Controller.sync c4World c4Reg "n/s" (some c4Svc)

/-- C4 scene: the pod sync of P that the sweep forces. -/
def c4OutP : PodOut :=
  PodController.sync { c4World with pods := c4Out.pods, services := c4Out.services }
    c4Out.registry (some c4Pod)

/-- C5 scene: workload wl1 with selector app=x. -/
def c5Wk : Workload := ⟨"default", "wl1", [("app", "x")]⟩

/-- C5 scene: pod p1 with labels app=x. -/
def c5Pod : Pod := ⟨"default", "p1", some [("app", "x")], false⟩

/-- C5 scene: service svc1 declaring target list ["wl1"], no selector yet. -/
def c5Svc : Service :=
  ⟨"default", "svc1", false, some (.text (some (.arr [.str "wl1"]))), none, none⟩

/-- C5 scene: the world. -/
def c5World : World :=
  ⟨[c5Wk], [c5Svc], [c5Pod], fun id => if id = "wl1" then some c5Wk else none⟩

/-- C5 scene: the first ServiceReconciler cycle on svc1. -/
def c5Out : SvcOut := Controller.sync c5World [] "default/svc1" (some c5Svc)

/-- C5 scene: svc1 as stored after the first cycle (selector installed). -/
def c5SvcB : Service := (findService c5Out.services "default" "svc1").getD c5Svc

/-- C5 scene: the world after the first cycle. -/
def c5WorldB : World := { c5World with services := c5Out.services, pods := c5Out.pods }

/-- C5 scene: the second cycle, on the redelivered updated service. -/
def c5OutB : SvcOut := Controller.sync c5WorldB c5Out.registry "default/svc1" (some c5SvcB)

/-- C6 scene: a pod with a nil label map. -/
def c6PodNil : Pod := ⟨"n", "q", none, false⟩

/-- C6 scene: an empty world holding only that pod. -/
def c6WorldNil : World := ⟨[], [], [c6PodNil], fun _ => none⟩

/-- C6 scene: a workload whose selector uses a synthetic key. -/
def c6Wk : Workload := ⟨"n", "w2", [("workloadID_s", "true")]⟩

/-- C6 scene: a service t targeting that workload, with its own synthetic
selector term. -/
def c6SvcT : Service := ⟨"n", "t", false, none, none, some [("workloadID_t", "true")]⟩

/-- C6 scene: the pod, carrying only the synthetic label the workload selects. -/
def c6Pod : Pod := ⟨"n", "p", some [("workloadID_s", "true")], false⟩

/-- C6 scene: the oscillation world. -/
def c6World : World := ⟨[c6Wk], [c6SvcT], [c6Pod], fun _ => none⟩

/-- C6 scene: registry mapping t to the workload. -/
def c6Reg : Registry := [("n/t", ["n/w2"])]

/-- C6 scene: the first pod sync. -/
def c6Out1 : PodOut := PodController.sync c6World c6Reg (some c6Pod)

/-- C6 scene: the pod as redelivered after the first sync's update. -/
def c6Pod2 : Pod := { c6Pod with labels := c6Out1.newLabels }

/-- C6 scene: the second pod sync. -/
def c6Out2 : PodOut :=
  PodController.sync { c6World with pods := c6Out1.pods } c6Reg (some c6Pod2)

/-- C6/C7 idempotent-world pod object after a sync, as the store redelivers
it: unchanged when no update was issued, else carrying the written labels. -/
def podAfter (p : Pod) (o : PodOut) : Pod :=
  if o.updateCount = 0 then p else { p with labels := o.newLabels }

/-- C7 scene: the target workload. -/
def c7Wk : Workload := ⟨"n", "w", [("m", "1")]⟩

/-- C7 scene: a pod with the non-synthetic label app=x. -/
def c7Pod : Pod := ⟨"n", "p", some [("m", "1"), ("app", "x")], false⟩

/-- C7 scene: a participating service whose selector also binds the
non-synthetic key app (to y). -/
def c7Svc : Service :=
  ⟨"n", "s", false, some (.text (some (.arr [.str "wid"]))), none,
    some [("app", "y"), ("workloadID_s", "true")]⟩

/-- C7 scene: the world. -/
def c7World : World :=
  ⟨[c7Wk], [c7Svc], [c7Pod], fun id => if id = "wid" then some c7Wk else none⟩

/-- C8 scene: the workload wl2 resolves to. -/
def c8Wk : Workload := ⟨"n2", "w2", [("b", "1")]⟩

/-- C8 scene: a member pod of wl2 missing the selector pair. -/
def c8Pod : Pod := ⟨"n2", "p8", some [("b", "1")], false⟩

/-- C8 scene: a service targeting wl1 and wl2, selector installed. -/
def c8Svc : Service :=
  ⟨"n", "s8", false, some (.text (some (.arr [.str "wl1", .str "wl2"]))), none,
    some [("workloadID_s8", "true")]⟩

/-- C8 scene: the world; wl1 does not resolve, wl2 does. -/
def c8World : World :=
  ⟨[c8Wk], [c8Svc], [c8Pod], fun id => if id = "wl2" then some c8Wk else none⟩

/-- C9 scene: a service whose annotation is the JSON array ["wl1", 5]: valid
JSON, but decoding into []string fails on the second element. -/
def c9Svc : Service :=
  ⟨"n", "sb", false, some (.text (some (.arr [.str "wl1", .num 5]))), none, none⟩

/-- C9 scene: the workload wl1 resolves to. -/
def c9Wk : Workload := ⟨"n", "w1", [("c", "1")]⟩

/-- C9 scene: the world. -/
def c9World : World :=
  ⟨[c9Wk], [c9Svc], [], fun id => if id = "wl1" then some c9Wk else none⟩

/-- C10 scene: a workload in namespace b. -/
def c10Wk : Workload := ⟨"b", "w", [("m", "1")]⟩

/-- C10 scene: the intended dependent service, in namespace a. -/
def c10SvcA : Service := ⟨"a", "s", false, none, none, some [("x", "fromA")]⟩

/-- C10 scene: an unrelated same-named service in the pod's namespace b. -/
def c10SvcB : Service := ⟨"b", "s", false, none, none, some [("x", "fromB")]⟩

/-- C10 scene: the pod, in namespace b. -/
def c10Pod : Pod := ⟨"b", "p", some [("m", "1")], false⟩

/-- C10 scene: registry entry of the namespace-a service, targeting the
namespace-b workload. -/
def c10Reg : Registry := [("a/s", ["b/w"])]

/-- C10 scene: world in which a same-named service exists in the pod's
namespace. -/
def c10WorldB : World := ⟨[c10Wk], [c10SvcA, c10SvcB], [c10Pod], fun _ => none⟩

/-- C10 scene: world in which it does not. -/
def c10WorldA : World := ⟨[c10Wk], [c10SvcA], [c10Pod], fun _ => none⟩

/-! Basic lemmas about the label-map operations. -/

/-- A helper congruence for `List.all`. -/
theorem list_all_congr {α : Type} {f g : α → Bool} :
    ∀ {l : List α}, (∀ x ∈ l, f x = g x) → l.all f = l.all g
  | [], _ => rfl
  | x :: t, h => by
    simp only [List.all_cons]
    rw [h x (by simp), list_all_congr (fun y hy => h y (by simp [hy]))]

/-- Lookup after an in-place insert. -/
theorem lget_linsert (m : LabelMap) (k v q : String) :
    lget (linsert m k v) q = if k = q then some v else lget m q := by
  induction m with
  | nil => simp [linsert, lget]
  | cons kv t ih =>
    obtain ⟨k1, v1⟩ := kv
    by_cases h1 : k1 = k
    · subst h1
      by_cases h2 : k1 = q <;> simp [linsert, lget, h2]
    · by_cases h2 : k1 = q
      · subst h2
        have hkq : ¬ k = k1 := fun he => h1 he.symm
        simp [linsert, lget, h1, hkq]
      · simp [linsert, lget, h1, h2, ih]

/-- A key is absent exactly when lookup misses. -/
theorem lget_eq_none_iff {m : LabelMap} {k : String} :
    lget m k = none ↔ k ∉ m.map Prod.fst := by
  induction m with
  | nil => simp [lget]
  | cons kv t ih =>
    obtain ⟨k1, v1⟩ := kv
    by_cases h : k1 = k
    · subst h
      simp [lget]
    · have hne : ¬ k = k1 := fun he => h he.symm
      simp [lget, h, hne, ih]

/-- Lookup finds only genuine entries. -/
theorem lget_mem {m : LabelMap} {k v : String} (h : lget m k = some v) : (k, v) ∈ m := by
  induction m with
  | nil => simp [lget] at h
  | cons kv t ih =>
    obtain ⟨k1, v1⟩ := kv
    by_cases h1 : k1 = k
    · subst h1
      simp only [lget, if_pos rfl] at h
      have hv : v1 = v := by injection h
      simp [hv]
    · simp only [lget, if_neg h1] at h
      exact List.mem_cons_of_mem _ (ih h)

/-- Entries of an insert come from the original map or are the new pair. -/
theorem mem_linsert {m : LabelMap} {k v : String} {x : String × String}
    (h : x ∈ linsert m k v) : x ∈ m ∨ x = (k, v) := by
  induction m with
  | nil => simp [linsert] at h; exact Or.inr h
  | cons kv t ih =>
    obtain ⟨k1, v1⟩ := kv
    by_cases h1 : k1 = k
    · subst h1
      simp only [linsert, if_pos rfl] at h
      rcases List.mem_cons.mp h with h2 | h2
      · exact Or.inr h2
      · exact Or.inl (List.mem_cons_of_mem _ h2)
    · simp only [linsert, if_neg h1] at h
      rcases List.mem_cons.mp h with h2 | h2
      · exact Or.inl (by simp [h2])
      · rcases ih h2 with h3 | h3
        · exact Or.inl (List.mem_cons_of_mem _ h3)
        · exact Or.inr h3

/-- Overlay entries come from one of the two maps. -/
theorem mem_loverlay {x : String × String} :
    ∀ {dst src : LabelMap}, x ∈ loverlay dst src → x ∈ dst ∨ x ∈ src := by
  intro dst src
  induction src generalizing dst with
  | nil => intro h; exact Or.inl h
  | cons kv t ih =>
    obtain ⟨k, v⟩ := kv
    intro h
    rcases ih h with h2 | h2
    · rcases mem_linsert h2 with h3 | h3
      · exact Or.inl h3
      · exact Or.inr (by simp [h3])
    · exact Or.inr (List.mem_cons_of_mem _ h2)

/-- Overlaying does not disturb keys absent from the source. -/
theorem lget_loverlay_src_none {k : String} :
    ∀ {dst src : LabelMap}, lget src k = none → lget (loverlay dst src) k = lget dst k := by
  intro dst src
  induction src generalizing dst with
  | nil => intro _; rfl
  | cons kv t ih =>
    obtain ⟨k1, v1⟩ := kv
    intro h
    by_cases h1 : k1 = k
    · simp [lget, h1] at h
    · simp only [lget, if_neg h1] at h
      show lget (loverlay (linsert dst k1 v1) t) k = lget dst k
      rw [ih h, lget_linsert, if_neg h1]

/-- Keys of an insert. -/
theorem mem_keys_linsert {m : LabelMap} {k v q : String}
    (h : q ∈ (linsert m k v).map Prod.fst) : q ∈ m.map Prod.fst ∨ q = k := by
  simp only [List.mem_map] at h
  obtain ⟨x, hx, hq⟩ := h
  rcases mem_linsert hx with h2 | h2
  · exact Or.inl (hq ▸ List.mem_map_of_mem Prod.fst h2)
  · exact Or.inr (hq.symm.trans (congrArg Prod.fst h2))

/-- Inserting preserves distinctness of keys. -/
theorem nodup_keys_linsert {m : LabelMap} {k v : String}
    (h : (m.map Prod.fst).Nodup) : ((linsert m k v).map Prod.fst).Nodup := by
  induction m with
  | nil => simp [linsert]
  | cons kv1 t ih =>
    obtain ⟨k1, v1⟩ := kv1
    simp only [List.map_cons, List.nodup_cons] at h
    by_cases h1 : k1 = k
    · subst h1
      have he : linsert ((k1, v1) :: t) k1 v = (k1, v) :: t := by simp [linsert]
      rw [he]
      simp only [List.map_cons, List.nodup_cons]
      exact ⟨h.1, h.2⟩
    · simp only [linsert, if_neg h1, List.map_cons, List.nodup_cons]
      exact ⟨fun hmem => (mem_keys_linsert hmem).elim h.1 h1, ih h.2⟩

/-- Overlaying preserves distinctness of keys. -/
theorem nodup_keys_loverlay :
    ∀ {dst src : LabelMap}, (dst.map Prod.fst).Nodup → ((loverlay dst src).map Prod.fst).Nodup := by
  intro dst src
  induction src generalizing dst with
  | nil => intro h; exact h
  | cons kv t ih =>
    obtain ⟨k, v⟩ := kv
    intro h
    exact ih (nodup_keys_linsert h)

/-- With distinct keys, every entry is what lookup returns. -/
theorem lget_of_mem_nodup {m : LabelMap} {k v : String}
    (hnd : (m.map Prod.fst).Nodup) (h : (k, v) ∈ m) : lget m k = some v := by
  induction m with
  | nil => simp at h
  | cons kv1 t ih =>
    obtain ⟨k1, v1⟩ := kv1
    simp only [List.map_cons, List.nodup_cons] at hnd
    rcases List.mem_cons.mp h with h2 | h2
    · have hk : k = k1 := congrArg Prod.fst h2
      have hv : v = v1 := congrArg Prod.snd h2
      subst hk
      subst hv
      simp [lget]
    · have hne : k1 ≠ k := by
        intro he
        exact hnd.1 (he ▸ List.mem_map_of_mem Prod.fst h2)
      simp [lget, hne, ih hnd.2 h2]

/-- Overlaying takes the source binding for keys the source holds, provided
the source has distinct keys. -/
theorem lget_loverlay_src_some {k v : String} :
    ∀ {dst src : LabelMap}, (src.map Prod.fst).Nodup → lget src k = some v →
      lget (loverlay dst src) k = some v := by
  intro dst src
  induction src generalizing dst with
  | nil => intro _ h; simp [lget] at h
  | cons kv t ih =>
    obtain ⟨k1, v1⟩ := kv
    intro hnd h
    simp only [List.map_cons, List.nodup_cons] at hnd
    by_cases h1 : k1 = k
    · subst h1
      simp only [lget, if_pos rfl] at h
      have hv : v1 = v := by injection h
      have ht : lget t k1 = none := lget_eq_none_iff.mpr hnd.1
      show lget (loverlay (linsert dst k1 v1) t) k1 = some v
      rw [lget_loverlay_src_none ht, lget_linsert, if_pos rfl, hv]
    · simp only [lget, if_neg h1] at h
      show lget (loverlay (linsert dst k1 v1) t) k = some v
      exact ih hnd.2 h

/-- Entries of an overlay whose key the source lacks come from the target. -/
theorem mem_loverlay_src_none {x : String × String} :
    ∀ {dst src : LabelMap}, x ∈ loverlay dst src → lget src x.1 = none → x ∈ dst := by
  intro dst src
  induction src generalizing dst with
  | nil => intro h _; exact h
  | cons kv t ih =>
    obtain ⟨k, v⟩ := kv
    intro h hnone
    by_cases h1 : k = x.1
    · simp [lget, h1] at hnone
    · simp only [lget, if_neg h1] at hnone
      have h2 : x ∈ linsert dst k v := ih h hnone
      rcases mem_linsert h2 with h3 | h3
      · exact h3
      · exact absurd (congrArg Prod.fst h3).symm h1

/-- Filtering by a predicate that accepts every binding of a key leaves
that key lookup unchanged. -/
theorem lget_filter_of_pred {f : String × String → Bool} {k : String}
    (hf : ∀ v, f (k, v) = true) :
    ∀ {m : LabelMap}, lget (m.filter f) k = lget m k := by
  intro m
  induction m with
  | nil => rfl
  | cons kv t ih =>
    obtain ⟨k1, v1⟩ := kv
    by_cases h1 : k1 = k
    · subst h1
      rw [List.filter_cons, if_pos (hf v1)]
      simp [lget, ih]
    · rw [List.filter_cons]
      cases hfv : f (k1, v1) <;> simp [lget, h1, ih]

/-- Lookup through `getD` agrees with nil-aware lookup. -/
theorem lget_getD (l : Option LabelMap) (k : String) :
    lget (l.getD []) k = olget l k := by
  cases l <;> rfl

/-- Loading right after storing the same key. -/
theorem regLoad_regStore (r : Registry) (k : String) (v : List String) :
    regLoad (regStore r k v) k = some v := by
  induction r with
  | nil => simp [regStore, regLoad]
  | cons e t ih =>
    obtain ⟨k1, v1⟩ := e
    by_cases h : k1 = k
    · subst h; simp [regStore, regLoad]
    · simp [regStore, regLoad, h, ih]

/-! Shared helper about the non-participating branch of the service sync. -/

/-- A live service whose annotation yields no workload ids makes the sync
return immediately: nothing is touched, including the registry. -/
theorem sync_untouched_of_no_ids (w : World) (reg : Registry) (key : String) (s : Service)
    (halive : s.deleted = false) (hids : isWorkloadService s = []) :
    Controller.sync w reg key (some s) =
      { services := w.services, pods := w.pods, registry := reg, enqueued := [],
        svcUpdateCount := 0, podCalls := [], ok := true } := by
  simp [Controller.sync, halive, hids]

/-! The claims. -/

/-- C1: the claim is false on the code: for the live, non-participating
service `c1Svc` (no annotation) whose key still has the registry entry
`["n/w"]`, the sync returns successfully yet the registry entry is still
present afterwards — the sync does not remove it. -/
theorem c1_counterexample :
    isWorkloadService c1Svc = [] ∧ c1Svc.deleted = false ∧
    (Controller.sync c1World c1Reg "n/s" (some c1Svc)).ok = true ∧
    regLoad (Controller.sync c1World c1Reg "n/s" (some c1Svc)).registry "n/s" = some ["n/w"] :=
  ⟨rfl, rfl, rfl, rfl⟩

/-- C1 (amended): for every service that still exists (not deleted, not
deletion-marked) but does not participate in propagation (opt-out
annotation set, or its decoded target list empty), a successful sync
returns with the registry — and every store — completely untouched; an
existing registry entry for the service therefore persists, and the
invariant "no registry entry exists for a service with an empty target
set" does not hold after such a sync. -/
theorem c1_amended_registry_untouched (w : World) (reg : Registry) (key : String) (s : Service)
    (halive : s.deleted = false) (hids : isWorkloadService s = []) :
    (Controller.sync w reg key (some s)).registry = reg ∧
    (Controller.sync w reg key (some s)).ok = true ∧
    (Controller.sync w reg key (some s)).pods = w.pods ∧
    (Controller.sync w reg key (some s)).services = w.services ∧
    (Controller.sync w reg key (some s)).podCalls = [] ∧
    (Controller.sync w reg key (some s)).svcUpdateCount = 0 := by
  rw [sync_untouched_of_no_ids w reg key s halive hids]
  exact ⟨rfl, rfl, rfl, rfl, rfl, rfl⟩

/-- C1 (amended) at the concrete counterexample state. -/
theorem c1_amended_witness :
    (Controller.sync c1World c1Reg "n/s" (some c1Svc)).registry = c1Reg ∧
    (Controller.sync c1World c1Reg "n/s" (some c1Svc)).ok = true ∧
    (Controller.sync c1World c1Reg "n/s" (some c1Svc)).pods = c1World.pods ∧
    (Controller.sync c1World c1Reg "n/s" (some c1Svc)).services = c1World.services ∧
    (Controller.sync c1World c1Reg "n/s" (some c1Svc)).podCalls = [] ∧
    (Controller.sync c1World c1Reg "n/s" (some c1Svc)).svcUpdateCount = 0 :=
  c1_amended_registry_untouched c1World c1Reg "n/s" c1Svc rfl rfl

/-- C2: the claim is false on the code: with the same registry content in
two different Range orders (`c2RegB` is `c2RegA` reversed), the
PodReconciler computes different label sets for the same pod and the same
external state (the services disagree on label l), and the collected
service-key list is neither deduplicated nor sorted (two workloads of one
entry yield the key twice). -/
theorem c2_counterexample :
    c2RegB = c2RegA.reverse ∧
    (PodController.sync c2World c2RegA (some c2Pod)).newLabels = some [("app", "x"), ("l", "2")] ∧
    (PodController.sync c2World c2RegB (some c2Pod)).newLabels = some [("app", "x"), ("l", "1")] ∧
    collectServiceKeys [c2Wk, c2WkB] [("n/s1", ["n/w", "n/w2"])] = ["n/s1", "n/s1"] :=
  ⟨rfl, rfl, rfl, rfl⟩

/-- C3: evaluation at the failing input: the service selector holds the two
pairs a=1 and b=2, pod q carries neither, so the inner loop queues q once
per missing pair — the sync issues two identical pod-update calls for q
instead of one. -/
theorem c3_duplicate_update_eval :
    (Controller.updatePods c3World (svcSel0 c3Svc) (isWorkloadService c3Svc)).2.map Pod.name
      = ["q", "q"] ∧
    (Controller.sync c3World [] "n/s" (some c3Svc)).podCalls.length = 2 ∧
    (svcSel0 c3Svc).length = 2 ∧
    hasPairB c3Pod.labels ("a", "1") = false ∧ hasPairB c3Pod.labels ("b", "2") = false :=
  ⟨rfl, rfl, rfl, rfl, rfl⟩

/-- C5: the claim is false on the code: after one full ServiceReconciler
cycle on svc1, pod p1's labels are still exactly {app: x} — the synthetic
label workloadID_svc1 is missing, because the sync installed the selector
only on the deep copy sent to the store and kept merging the stale
in-memory selector (empty) into pods. -/
theorem c5_counterexample :
    (findPod c5Out.pods "default" "p1").map Pod.labels = some (some [("app", "x")]) ∧
    olget (((findPod c5Out.pods "default" "p1").getD c5Pod).labels) "workloadID_svc1" = none :=
  ⟨rfl, rfl⟩

/-- C5 (amended): after one full cycle, svc1's stored selector does contain
{workloadID_svc1: true} but p1's labels are unchanged at {app: x}; only a
second cycle — triggered by the redelivery of the updated service — merges
the synthetic pair into p1, leaving labels {app: x, workloadID_svc1: true}. -/
theorem c5_amended_two_cycles :
    (findService c5Out.services "default" "svc1").map Service.selector
      = some (some [("workloadID_svc1", "true")]) ∧
    (findPod c5Out.pods "default" "p1").map Pod.labels = some (some [("app", "x")]) ∧
    c5Out.svcUpdateCount = 1 ∧ c5Out.podCalls = [] ∧
    regLoad c5Out.registry "default/svc1" = some ["default/wl1"] ∧
    (findPod c5OutB.pods "default" "p1").map Pod.labels
      = some (some [("app", "x"), ("workloadID_svc1", "true")]) ∧
    c5OutB.svcUpdateCount = 0 :=
  ⟨rfl, rfl, rfl, rfl, rfl, rfl, rfl⟩

/-- C6: the claim is false on the code, in both halves. First: pod q has a
nil label map and the recomputed set is empty — structurally equal as maps
(both have no keys) — yet `reflect.DeepEqual(nil, map[string]string{})` is
false, so one update is issued. Second: two sequential runs on pod p (whose
matching workload selects on a synthetic key and whose dependent service
injects a different synthetic key) each issue an update: the second run is
not update-free. -/
theorem c6_counterexample :
    ((PodController.sync c6WorldNil [] (some c6PodNil)).newLabels = some [] ∧
      c6PodNil.labels = none ∧
      (PodController.sync c6WorldNil [] (some c6PodNil)).updateCount = 1) ∧
    (c6Out1.updateCount = 1 ∧ c6Out2.updateCount = 1) :=
  ⟨⟨rfl, rfl, rfl⟩, rfl, rfl⟩

/-- C7: the claim is false on the code: service s participates with
selector {app: y, workloadID_s: true}; pod p carries the non-synthetic
label app=x; the sync's pod updates overwrite it to app=y, so a label
whose key does not use the synthetic-prefix convention is not preserved
verbatim. -/
theorem c7_counterexample :
    olget c7Pod.labels "app" = some "x" ∧
    hasWidPref "app" = false ∧
    (Controller.sync c7World [] "n/s" (some c7Svc)).podCalls.map
      (fun p => olget p.labels "app") = [some "y", some "y"] ∧
    (findPod (Controller.sync c7World [] "n/s" (some c7Svc)).pods "n" "p").map
      (fun p => olget p.labels "app") = some (some "y") :=
  ⟨rfl, rfl, rfl, rfl⟩

/-- C9: the claim is false on the code: the annotation payload
`["wl1", 5]` fails to decode into []string (the unmarshal error flag is
set), yet the partially decoded identifiers ["wl1", ""] are acted upon:
the sync installs the selector (one service update) and stores a registry
entry built from the resolvable partial identifier — not the
behave-as-empty treatment the claim requires. -/
theorem c9_counterexample :
    (unmarshalStringArray (.arr [.str "wl1", .num 5])).2 = false ∧
    isWorkloadService c9Svc = ["wl1", ""] ∧
    regLoad (Controller.sync c9World [] "n/sb" (some c9Svc)).registry "n/sb" = some ["n/w1"] ∧
    (Controller.sync c9World [] "n/sb" (some c9Svc)).svcUpdateCount = 1 :=
  ⟨rfl, rfl, rfl, rfl⟩

/-- C9 (amended): only a payload that fails to decode without producing any
elements — a JSON syntax error, or a top-level value that is not an array —
is treated as an empty target list, making the sync return without error,
install no selector, update no pods, and leave the registry unwritten; a
well-formed JSON array with non-string elements instead partially decodes
(failed slots become "") and the sync acts on the partial list. -/
theorem c9_amended_inert_on_bad_parse (w : World) (reg : Registry) (key : String) (s : Service)
    (p : Option Json)
    (halive : s.deleted = false)
    (hann : s.targetWorkloadIdsAnn = some (.text p))
    (hbad : ∀ xs, p ≠ some (.arr xs)) :
    (Controller.sync w reg key (some s)).registry = reg ∧
    (Controller.sync w reg key (some s)).ok = true ∧
    (Controller.sync w reg key (some s)).pods = w.pods ∧
    (Controller.sync w reg key (some s)).services = w.services ∧
    (Controller.sync w reg key (some s)).podCalls = [] ∧
    (Controller.sync w reg key (some s)).svcUpdateCount = 0 := by
  have hids : isWorkloadService s = [] := by
    rw [isWorkloadService, hann]
    by_cases hnoop : s.noopAnn = some "true"
    · simp [hnoop]
    · cases p with
      | none => simp [hnoop]
      | some j =>
        cases j with
        | arr xs => exact absurd rfl (hbad xs)
        | str s2 => simp [hnoop, unmarshalStringArray]
        | num n => simp [hnoop, unmarshalStringArray]
        | other => simp [hnoop, unmarshalStringArray]
  rw [sync_untouched_of_no_ids w reg key s halive hids]
  exact ⟨rfl, rfl, rfl, rfl, rfl, rfl⟩

/-- C9 (amended) at a concrete malformed payload (syntax error). -/
theorem c9_amended_witness :
    (Controller.sync c9World [] "n/x" (some ⟨"n", "x", false, some (.text none), none, none⟩)).registry = [] ∧
    (Controller.sync c9World [] "n/x" (some ⟨"n", "x", false, some (.text none), none, none⟩)).ok = true ∧
    (Controller.sync c9World [] "n/x" (some ⟨"n", "x", false, some (.text none), none, none⟩)).pods = c9World.pods ∧
    (Controller.sync c9World [] "n/x" (some ⟨"n", "x", false, some (.text none), none, none⟩)).services = c9World.services ∧
    (Controller.sync c9World [] "n/x" (some ⟨"n", "x", false, some (.text none), none, none⟩)).podCalls = [] ∧
    (Controller.sync c9World [] "n/x" (some ⟨"n", "x", false, some (.text none), none, none⟩)).svcUpdateCount = 0 :=
  c9_amended_inert_on_bad_parse c9World [] "n/x" ⟨"n", "x", false, some (.text none), none, none⟩
    none rfl rfl (fun xs h => by cases h)

/-! Accessor lemmas for the participating branch of the service sync. -/

/-- On the participating branch the sync reports success. -/
theorem sync_participating_ok (w : World) (reg : Registry) (key : String) (s : Service)
    (halive : s.deleted = false) (hne : (isWorkloadService s).isEmpty = false) :
    (Controller.sync w reg key (some s)).ok = true := by
  simp [Controller.sync, halive, hne]

/-- On the participating branch the pod-update calls are those of
`updatePods`. -/
theorem sync_participating_podCalls (w : World) (reg : Registry) (key : String) (s : Service)
    (halive : s.deleted = false) (hne : (isWorkloadService s).isEmpty = false) :
    (Controller.sync w reg key (some s)).podCalls
      = Controller.podCallsOf w (svcSel0 s) (isWorkloadService s) := by
  simp [Controller.sync, halive, hne]

/-- On the participating branch the registry gets the computed target set. -/
theorem sync_participating_registry (w : World) (reg : Registry) (key : String) (s : Service)
    (halive : s.deleted = false) (hne : (isWorkloadService s).isEmpty = false) :
    (Controller.sync w reg key (some s)).registry = regStore reg key (svcTargets w s) := by
  simp [Controller.sync, halive, hne]

/-- On the participating branch the pod store is the original one with the
queued updates applied. -/
theorem sync_participating_pods (w : World) (reg : Registry) (key : String) (s : Service)
    (halive : s.deleted = false) (hne : (isWorkloadService s).isEmpty = false) :
    (Controller.sync w reg key (some s)).pods
      = applyPodCalls w.pods (Controller.podCallsOf w (svcSel0 s) (isWorkloadService s)) := by
  simp [Controller.sync, halive, hne]

/-- On the participating branch the enqueued pods are exactly the cleanup
sweep when it is needed, nothing otherwise. -/
theorem sync_participating_enqueued (w : World) (reg : Registry) (key : String) (s : Service)
    (halive : s.deleted = false) (hne : (isWorkloadService s).isEmpty = false) :
    (Controller.sync w reg key (some s)).enqueued
      = if cleanupNeeded w reg key s then
          updateServiceWorkloadPods
            (applyPodCalls w.pods (Controller.podCallsOf w (svcSel0 s) (isWorkloadService s))) key
        else [] := by
  simp [Controller.sync, halive, hne]

/-- C4: first half, the general cleanup sweep: whenever a live participating
service's previous registry entry holds a workload key absent from the new
target set, the sync's enqueued set is exactly the pods of the service's
namespace carrying the synthetic selector pair (a direct requeue — the
sweep writes no labels itself). Second half, the concrete shrink scenario:
S targeted {A,B}, pod P of B is labeled, S now targets {A} only; the
service sync enqueues P and stores {A}, and the following pod sync on P
removes S's synthetic label (one update). -/
theorem c4_cleanup_sweep :
    (∀ (w : World) (reg : Registry) (key : String) (s : Service),
      s.deleted = false → (isWorkloadService s).isEmpty = false →
      cleanupNeeded w reg key s = true →
      (Controller.sync w reg key (some s)).enqueued =
        (listPods (Controller.sync w reg key (some s)).pods (keyNs key)
          [(getServiceSelector (keyName key), "true")]).map (fun p => (p.ns, p.name))) ∧
    (c4Out.enqueued = [("n", "p")] ∧
      regLoad c4Out.registry "n/s" = some ["n/a"] ∧
      c4Out.podCalls = [] ∧
      (findPod c4OutP.pods "n" "p").map Pod.labels = some (some [("bapp", "x")]) ∧
      olget (((findPod c4OutP.pods "n" "p").getD c4Pod).labels) "workloadID_s" = none ∧
      c4OutP.updateCount = 1) := by
  constructor
  · intro w reg key s halive hne hclean
    rw [sync_participating_enqueued w reg key s halive hne, if_pos hclean,
      sync_participating_pods w reg key s halive hne]
    rfl
  · exact ⟨rfl, rfl, rfl, rfl, rfl, rfl⟩

/-- C4's general half at the concrete shrink state. -/
theorem c4_cleanup_sweep_witness :
    (Controller.sync c4World c4Reg "n/s" (some c4Svc)).enqueued =
      (listPods (Controller.sync c4World c4Reg "n/s" (some c4Svc)).pods (keyNs "n/s")
        [(getServiceSelector (keyName "n/s"), "true")]).map (fun p => (p.ns, p.name)) :=
  c4_cleanup_sweep.1 c4World c4Reg "n/s" c4Svc rfl rfl rfl

/-- A failing service fetch anywhere in the collected key list makes the
whole fetch-and-merge loop fail. -/
theorem fetchAndMerge_none_of_fail {svcs : List Service} {ns : String} :
    ∀ {keys : List String} {acc : LabelMap} {k : String}, k ∈ keys →
      findService svcs ns (keyName k) = none →
      fetchAndMerge svcs ns keys acc = none := by
  intro keys
  induction keys with
  | nil => intro acc k h _; simp at h
  | cons k0 t ih =>
    intro acc k hmem hfail
    rcases List.mem_cons.mp hmem with h2 | h2
    · subst h2
      simp [fetchAndMerge, hfail]
    · cases hf : findService svcs ns (keyName k0) with
      | none => simp [fetchAndMerge, hf]
      | some sv =>
        simp only [fetchAndMerge, hf]
        exact ih h2 hfail

/-- C10: the PodReconciler fetches every dependent service with the pod's
own namespace and only the name part of the registry key. First half, in
general: if some collected key's name part has no service in the pod's
namespace, the pod sync returns an error. Second half, concretely: the
dependent service lives in namespace a while the pod lives in namespace b;
with a same-named service in b, its selector pair x=fromB — not the
intended x=fromA — is merged into the pod; without one, the sync errors
and issues no update. -/
theorem c10_namespace_lookup :
    (∀ (w : World) (reg : Registry) (p : Pod) (k : String),
      p.deleted = false →
      k ∈ collectServiceKeys (workloadsMatchingLabels w.workloads p.ns p.labels) reg →
      findService w.services p.ns (keyName k) = none →
      (PodController.sync w reg (some p)).ok = false ∧
      (PodController.sync w reg (some p)).updateCount = 0) ∧
    ((PodController.sync c10WorldB c10Reg (some c10Pod)).newLabels
        = some [("m", "1"), ("x", "fromB")] ∧
      c10SvcA.ns = "a" ∧ c10Pod.ns = "b" ∧ c10SvcA.selector = some [("x", "fromA")] ∧
      c10SvcB.selector = some [("x", "fromB")] ∧
      keyName "a/s" = "s" ∧
      (PodController.sync c10WorldA c10Reg (some c10Pod)).ok = false ∧
      (PodController.sync c10WorldA c10Reg (some c10Pod)).updateCount = 0) := by
  constructor
  · intro w reg p k halive hmem hfail
    have h := @fetchAndMerge_none_of_fail w.services p.ns
      (collectServiceKeys (workloadsMatchingLabels w.workloads p.ns p.labels) reg) [] k hmem hfail
    constructor <;> simp [PodController.sync, podDesired, halive, h]
  · exact ⟨rfl, rfl, rfl, rfl, rfl, rfl, rfl, rfl⟩

/-- C10's general half at the concrete cross-namespace state. -/
theorem c10_namespace_lookup_witness :
    (PodController.sync c10WorldA c10Reg (some c10Pod)).ok = false ∧
    (PodController.sync c10WorldA c10Reg (some c10Pod)).updateCount = 0 :=
  c10_namespace_lookup.1 c10WorldA c10Reg c10Pod "a/s" rfl (by decide) rfl

/-- C8: during a participating sync of a service declaring exactly the ids
id1 and id2, where id1 fails to resolve and id2 resolves to tw2, the sync
succeeds; the registry entry stored under the service key is exactly
[tw2's workload key] (the failed identifier contributes nothing); and every
live member pod of tw2 missing at least one of the service's selector pairs
receives an update call carrying all of the service's selector pairs. -/
theorem c8_skip_on_failure (w : World) (reg : Registry) (key : String) (s : Service)
    (id1 id2 : String) (tw2 : Workload)
    (halive : s.deleted = false)
    (hids : isWorkloadService s = [id1, id2])
    (hfail : w.resolveWorkload id1 = none)
    (hok : w.resolveWorkload id2 = some tw2)
    (hsel : ((svcSel0 s).map Prod.fst).Nodup) :
    (Controller.sync w reg key (some s)).ok = true ∧
    regLoad (Controller.sync w reg key (some s)).registry key = some [Workload.key tw2] ∧
    (∀ p ∈ listPods w.pods tw2.ns tw2.selectorLabels, p.deleted = false →
      (∃ kv ∈ svcSel0 s, hasPairB p.labels kv = false) →
      { p with labels := some (loverlay (p.labels.getD []) (svcSel0 s)) }
          ∈ (Controller.sync w reg key (some s)).podCalls ∧
      (∀ kv ∈ svcSel0 s,
        hasPairB (some (loverlay (p.labels.getD []) (svcSel0 s))) kv = true)) := by
  have hne : (isWorkloadService s).isEmpty = false := by rw [hids]; rfl
  have hcollect : Controller.updatePods w (svcSel0 s) (isWorkloadService s)
      = ([Workload.key tw2],
         ((listPods w.pods tw2.ns tw2.selectorLabels).filter (fun p => !p.deleted)).flatMap
           (fun p =>
             ((svcSel0 s).filter (fun kv => !(hasPairB p.labels kv))).map (fun _ => p))) := by
    rw [hids]
    simp [Controller.updatePods, collectLoop, hfail, hok, setInsert]
  refine ⟨sync_participating_ok w reg key s halive hne, ?_, ?_⟩
  · rw [sync_participating_registry w reg key s halive hne, regLoad_regStore]
    unfold svcTargets
    rw [hcollect]
  · rintro p hp hdel ⟨kv, hkv, hmiss⟩
    have hq : p ∈ (Controller.updatePods w (svcSel0 s) (isWorkloadService s)).2 := by
      rw [hcollect]
      refine List.mem_flatMap.mpr ⟨p, List.mem_filter.mpr ⟨hp, by simp [hdel]⟩, ?_⟩
      exact List.mem_map.mpr ⟨kv, List.mem_filter.mpr ⟨hkv, by simp [hmiss]⟩, rfl⟩
    constructor
    · rw [sync_participating_podCalls w reg key s halive hne]
      exact List.mem_map_of_mem _ hq
    · rintro ⟨a, b⟩ hkv2
      have hlook : lget (svcSel0 s) a = some b := lget_of_mem_nodup hsel hkv2
      have hover : lget (loverlay (p.labels.getD []) (svcSel0 s)) a = some b :=
        lget_loverlay_src_some hsel hlook
      simp [hasPairB, olget, hover]

/-- C8 at the concrete skip-on-failure state (wl1 unresolvable, wl2
resolving to workload n2/w2 with the labeled member pod p8). -/
theorem c8_skip_on_failure_witness :
    (Controller.sync c8World [] "n/s8" (some c8Svc)).ok = true ∧
    regLoad (Controller.sync c8World [] "n/s8" (some c8Svc)).registry "n/s8"
      = some [Workload.key c8Wk] ∧
    (∀ p ∈ listPods c8World.pods c8Wk.ns c8Wk.selectorLabels, p.deleted = false →
      (∃ kv ∈ svcSel0 c8Svc, hasPairB p.labels kv = false) →
      { p with labels := some (loverlay (p.labels.getD []) (svcSel0 c8Svc)) }
          ∈ (Controller.sync c8World [] "n/s8" (some c8Svc)).podCalls ∧
      (∀ kv ∈ svcSel0 c8Svc,
        hasPairB (some (loverlay (p.labels.getD []) (svcSel0 c8Svc))) kv = true)) :=
  c8_skip_on_failure c8World [] "n/s8" c8Svc "wl1" "wl2" c8Wk rfl rfl rfl rfl (by decide)

/-- Every pod ever queued by the update loop comes from the pod store. -/
theorem mem_queue_collectLoop {w : World} {sel : LabelMap} :
    ∀ {ids : List String} {targets : List String} {queue : List Pod} {q : Pod},
      q ∈ (collectLoop w sel ids targets queue).2 → q ∈ queue ∨ q ∈ w.pods := by
  intro ids
  induction ids with
  | nil => intro targets queue q h; exact Or.inl h
  | cons id t ih =>
    intro targets queue q h
    cases hr : w.resolveWorkload id with
    | none =>
      simp only [collectLoop, hr] at h
      exact ih h
    | some tw =>
      simp only [collectLoop, hr] at h
      rcases ih h with h2 | h2
      · rcases List.mem_append.mp h2 with h3 | h3
        · exact Or.inl h3
        · obtain ⟨p, hp, hq⟩ := List.mem_flatMap.mp h3
          obtain ⟨kv, hkv, he⟩ := List.mem_map.mp hq
          have hpq : p = q := he
          subst hpq
          exact Or.inr (List.mem_filter.mp ((List.mem_filter.mp hp).1)).1
      · exact Or.inr h2

/-- The fetch-and-merge loop cannot invent a binding for a key that no
service's selector holds. -/
theorem fetchAndMerge_lget_absent {svcs : List Service} {ns : String} {k : String}
    (habs : ∀ s ∈ svcs, lget (s.selector.getD []) k = none) :
    ∀ {keys : List String} {acc : LabelMap} {wsl : LabelMap},
      fetchAndMerge svcs ns keys acc = some wsl → lget wsl k = lget acc k := by
  intro keys
  induction keys with
  | nil =>
    intro acc wsl h
    injection h with h
    rw [← h]
  | cons k0 t ih =>
    intro acc wsl h
    cases hf : findService svcs ns (keyName k0) with
    | none => simp [fetchAndMerge, hf] at h
    | some sv =>
      simp only [fetchAndMerge, hf] at h
      have hsv : sv ∈ svcs := List.mem_of_find?_eq_some hf
      rw [ih h, lget_loverlay_src_none (habs sv hsv)]

/-- On a live pod with a successful service fetch, the sync's outcome is
determined by the DeepEqual guard over the recomputed labels. -/
theorem podSync_eq_of_desired {w : World} {reg : Registry} {p : Pod} {wsl : LabelMap}
    (hdel : p.deleted = false) (hfm : podDesired w reg p = some wsl) :
    PodController.sync w reg (some p) =
      if deepEqualLabels p.labels (recomputedLabels p wsl) then
        { pods := w.pods, newLabels := some (recomputedLabels p wsl),
          updateCount := 0, ok := true }
      else
        { pods := updatePodIn w.pods { p with labels := some (recomputedLabels p wsl) },
          newLabels := some (recomputedLabels p wsl), updateCount := 1, ok := true } := by
  simp [PodController.sync, hdel, hfm]

/-- On a live pod with a successful service fetch, the recomputed label set
is reported whether or not an update is issued. -/
theorem podSync_newLabels {w : World} {reg : Registry} {p : Pod} {wsl : LabelMap}
    (hdel : p.deleted = false) (hfm : podDesired w reg p = some wsl) :
    (PodController.sync w reg (some p)).newLabels = some (recomputedLabels p wsl) := by
  rw [podSync_eq_of_desired hdel hfm]
  split <;> rfl

/-- C7 (amended): both reconcilers preserve, verbatim, every label whose key
is outside the set of selector keys they merge. For the ServiceReconciler:
every issued pod-update call agrees with the stored pod on every key absent
from the service's (in-memory) selector — but keys present in the selector,
synthetic or not, may be overwritten. For the PodReconciler: the recomputed
label set agrees with the pod's current labels on every key that is not
workloadID-prefixed and is not bound by any service's selector. -/
theorem c7_amended_frame :
    (∀ (w : World) (sel : LabelMap) (ids : List String) (c : Pod),
      c ∈ Controller.podCallsOf w sel ids →
      ∃ p ∈ w.pods, c.ns = p.ns ∧ c.name = p.name ∧
        ∀ k, lget sel k = none → olget c.labels k = olget p.labels k) ∧
    (∀ (w : World) (reg : Registry) (p : Pod) (L : LabelMap),
      (PodController.sync w reg (some p)).newLabels = some L →
      ∀ k, hasWidPref k = false →
        (∀ s ∈ w.services, lget (s.selector.getD []) k = none) →
        lget L k = olget p.labels k) := by
  constructor
  · intro w sel ids c hc
    obtain ⟨q, hq, he⟩ := List.mem_map.mp hc
    have hqw : q ∈ w.pods := by
      rcases mem_queue_collectLoop hq with h2 | h2
      · simp at h2
      · exact h2
    refine ⟨q, hqw, ?_, ?_, ?_⟩
    · rw [← he]
    · rw [← he]
    · intro k hk
      rw [← he]
      show lget (loverlay (q.labels.getD []) sel) k = olget q.labels k
      rw [lget_loverlay_src_none hk, lget_getD]
  · intro w reg p L hL k hkpref habs
    by_cases hdel : p.deleted = true
    · simp [PodController.sync, hdel] at hL
    · have hdelf : p.deleted = false := by simpa using hdel
      cases hfm : podDesired w reg p with
      | none => simp [PodController.sync, hdelf, hfm] at hL
      | some wsl =>
        rw [podSync_newLabels hdelf hfm] at hL
        injection hL with hL
        subst hL
        have hfm2 : fetchAndMerge w.services p.ns
            (collectServiceKeys (workloadsMatchingLabels w.workloads p.ns p.labels) reg) []
            = some wsl := hfm
        have hwsl : lget wsl k = none := by
          rw [fetchAndMerge_lget_absent habs hfm2]
          rfl
        rw [recomputedLabels, lget_loverlay_src_none hwsl,
          lget_filter_of_pred (fun v => by simp [hkpref]), lget_getD]

/-- C7 (amended), PodReconciler half, at a concrete state: the recomputed
set of pod p under no dependent services agrees with p's labels on the
untouched key zzz. -/
theorem c7_amended_witness :
    lget [("m", "1"), ("app", "x")] "zzz" = olget c7Pod.labels "zzz" :=
  c7_amended_frame.2 c7World [] c7Pod [("m", "1"), ("app", "x")] rfl "zzz" rfl (by decide)

/-- A key absent from the registry never appears among filtered keys. -/
theorem count_zero_of_not_mem_keys {t : Registry} {k : String}
    {f : String × List String → Bool}
    (h : k ∉ t.map Prod.fst) : ((t.filter f).map Prod.fst).count k = 0 := by
  rw [List.count_eq_zero]
  intro hmem
  apply h
  simp only [List.mem_map] at hmem ⊢
  obtain ⟨x, hx, he⟩ := hmem
  exact ⟨x, (List.mem_filter.mp hx).1, he⟩

/-- With distinct registry keys, how often a service key survives the
contains-filter of one workload key: once if its stored set holds that
workload key, never otherwise. -/
theorem count_filter_keys {reg : Registry} {k : String}
    (hnd : (reg.map Prod.fst).Nodup) (dk : String) :
    (((reg.filter (fun e => e.2.contains dk)).map Prod.fst).count k)
      = match regLoad reg k with
        | some e => if e.contains dk then 1 else 0
        | none => 0 := by
  induction reg with
  | nil => simp [regLoad]
  | cons e t ih =>
    obtain ⟨k1, v1⟩ := e
    simp only [List.map_cons, List.nodup_cons] at hnd
    by_cases h1 : k1 = k
    · subst h1
      cases hv : v1.contains dk with
      | true =>
        have hv2 : dk ∈ v1 := by simpa using hv
        rw [List.filter_cons, if_pos (by simpa using hv)]
        simp [regLoad, hv2, List.count_cons, count_zero_of_not_mem_keys hnd.1]
      | false =>
        have hv2 : dk ∉ v1 := by simpa using hv
        rw [List.filter_cons, if_neg (by simpa using hv)]
        simp [regLoad, hv2, count_zero_of_not_mem_keys hnd.1]
    · have hstep : ((((k1, v1) :: t).filter (fun e => e.2.contains dk)).map Prod.fst).count k
          = ((t.filter (fun e => e.2.contains dk)).map Prod.fst).count k := by
        rw [List.filter_cons]
        cases hv : v1.contains dk <;> simp [hv, List.count_cons, h1]
      rw [hstep, ih hnd.2]
      simp [regLoad, h1]

/-- C2 (amended): the dependent service keys are collected in registry
iteration order, once per (matched workload, registry entry) incidence —
neither deduplicated nor sorted: for distinct registry keys the number of
occurrences of a service key equals the number of matched workloads whose
key lies in that service's stored set. Later occurrences win label-key
collisions, so the result is reproducible only for a fixed iteration
order. -/
theorem c2_amended_collect_count (ds : List Workload) (reg : Registry) (k : String)
    (hnd : (reg.map Prod.fst).Nodup) :
    (collectServiceKeys ds reg).count k
      = ds.countP (fun d => match regLoad reg k with
          | some e => e.contains (Workload.key d)
          | none => false) := by
  induction ds with
  | nil => rfl
  | cons d t ih =>
    simp only [collectServiceKeys, List.flatMap_cons] at *
    rw [List.count_append, List.countP_cons, ih, count_filter_keys hnd (Workload.key d)]
    cases hreg : regLoad reg k
    · simp
    · simp [Nat.add_comm]

/-- C2 (amended) at the concrete duplicate-producing state: both workloads
match the pod and lie in the single registry entry, so its service key is
collected twice. -/
theorem c2_amended_witness :
    (collectServiceKeys [c2Wk, c2WkB] [("n/s1", ["n/w", "n/w2"])]).count "n/s1"
      = [c2Wk, c2WkB].countP
          (fun d => match regLoad [("n/s1", ["n/w", "n/w2"])] "n/s1" with
            | some e => e.contains (Workload.key d)
            | none => false) :=
  c2_amended_collect_count [c2Wk, c2WkB] [("n/s1", ["n/w", "n/w2"])] "n/s1" (by decide)

/-- Equal lookups give equal pair-tests. -/
theorem hasPairB_congr {a b : Option LabelMap} {kv : String × String}
    (h : olget a kv.1 = olget b kv.1) : hasPairB a kv = hasPairB b kv := by
  simp [hasPairB, h]

/-- A map whose keys all carry the synthetic prefix has no binding for a
key without it. -/
theorem lget_none_of_all_pref {m : LabelMap} {k : String}
    (hall : ∀ kv ∈ m, hasWidPref kv.1 = true) (hk : hasWidPref k = false) :
    lget m k = none := by
  cases hv : lget m k with
  | none => rfl
  | some v =>
    have := hall (k, v) (lget_mem hv)
    rw [hk] at this
    cases this

/-- Mutual lookup containment gives map equality. -/
theorem mapEqb_of_lget_eq {a b : LabelMap}
    (hab : ∀ kv ∈ a, lget b kv.1 = some kv.2)
    (hba : ∀ kv ∈ b, lget a kv.1 = some kv.2) :
    mapEqb a b = true := by
  rw [mapEqb, Bool.and_eq_true, List.all_eq_true, List.all_eq_true]
  constructor
  · intro kv hkv
    simp [hasPairB, olget, hab kv hkv]
  · intro kv hkv
    simp [hasPairB, olget, hba kv hkv]

/-- Filtering keeps keys distinct. -/
theorem nodup_keys_filter {m : LabelMap} {f : String × String → Bool}
    (h : (m.map Prod.fst).Nodup) : ((m.filter f).map Prod.fst).Nodup :=
  h.sublist ((List.filter_sublist m).map Prod.fst)

/-- The fetch-and-merge loop keeps keys distinct. -/
theorem fetchAndMerge_nodup {svcs : List Service} {ns : String} :
    ∀ {keys : List String} {acc wsl : LabelMap}, (acc.map Prod.fst).Nodup →
      fetchAndMerge svcs ns keys acc = some wsl → (wsl.map Prod.fst).Nodup := by
  intro keys
  induction keys with
  | nil =>
    intro acc wsl h hf
    injection hf with hf
    rw [← hf]
    exact h
  | cons k0 t ih =>
    intro acc wsl h hf
    cases hfind : findService svcs ns (keyName k0) with
    | none => simp [fetchAndMerge, hfind] at hf
    | some sv =>
      simp only [fetchAndMerge, hfind] at hf
      exact ih (nodup_keys_loverlay h) hf

/-- When every service selector uses only synthetic-prefixed keys, the
desired map has no binding for an unprefixed key, and the recomputed label
set agrees with the pod's current labels there. -/
theorem recomputed_olget_nonpref {w : World} {reg : Registry} {p : Pod} {wsl : LabelMap}
    {k : String}
    (h2 : ∀ s ∈ w.services, ∀ kv ∈ s.selector.getD [], hasWidPref kv.1 = true)
    (hfm : podDesired w reg p = some wsl)
    (hk : hasWidPref k = false) :
    lget wsl k = none ∧ lget (recomputedLabels p wsl) k = olget p.labels k := by
  have habs : ∀ s ∈ w.services, lget (s.selector.getD []) k = none :=
    fun s hs => lget_none_of_all_pref (h2 s hs) hk
  have hfm2 : fetchAndMerge w.services p.ns
      (collectServiceKeys (workloadsMatchingLabels w.workloads p.ns p.labels) reg) []
      = some wsl := hfm
  have hwsl : lget wsl k = none := by
    rw [fetchAndMerge_lget_absent habs hfm2]
    rfl
  refine ⟨hwsl, ?_⟩
  rw [recomputedLabels, lget_loverlay_src_none hwsl,
    lget_filter_of_pred (fun v => by simp [hk]), lget_getD]

/-- Workload matching is blind to labels that differ only on
synthetic-prefixed keys, as long as no workload selector uses such a key. -/
theorem matching_invariant {w : World} {p : Pod} {nl : LabelMap}
    (h1 : ∀ d ∈ w.workloads, ∀ kv ∈ d.selectorLabels, hasWidPref kv.1 = false)
    (hagree : ∀ k, hasWidPref k = false → olget (some nl) k = olget p.labels k) :
    workloadsMatchingLabels w.workloads p.ns (some nl)
      = workloadsMatchingLabels w.workloads p.ns p.labels := by
  apply List.filter_congr
  intro d hd
  have he : lsubsetO d.selectorLabels (some nl) = lsubsetO d.selectorLabels p.labels := by
    apply list_all_congr
    intro kv hkv
    exact hasPairB_congr (hagree kv.1 (h1 d hd kv hkv))
  simp [he]

/-- A second recomputation from labels already rebuilt around `wsl` keeps
every entry. -/
theorem recomputed_fixpoint {p2 : Pod} {nl wsl : LabelMap}
    (hlab : p2.labels = some nl)
    (hkeep : ∀ kv ∈ nl, (!(hasWidPref kv.1) || (lget wsl kv.1).isSome) = true) :
    recomputedLabels p2 wsl = loverlay nl wsl := by
  rw [recomputedLabels, hlab]
  show loverlay (nl.filter fun kv => !(hasWidPref kv.1) || (lget wsl kv.1).isSome) wsl
    = loverlay nl wsl
  rw [List.filter_eq_self.mpr hkeep]

/-- Overlaying the desired map onto labels that were already rebuilt from
it changes nothing, up to map equality. -/
theorem mapEqb_overlay_self {nl wsl kept : LabelMap}
    (hnl : nl = loverlay kept wsl)
    (hnd_nl : (nl.map Prod.fst).Nodup)
    (hnd_wsl : (wsl.map Prod.fst).Nodup) :
    mapEqb nl (loverlay nl wsl) = true := by
  apply mapEqb_of_lget_eq
  · rintro ⟨a, b⟩ hab
    have hv : lget nl a = some b := lget_of_mem_nodup hnd_nl hab
    cases hw : lget wsl a with
    | none => rw [lget_loverlay_src_none hw]; exact hv
    | some u =>
      have h3 : lget (loverlay kept wsl) a = some u := lget_loverlay_src_some hnd_wsl hw
      have h4 : lget nl a = some u := by rw [hnl]; exact h3
      rw [lget_loverlay_src_some hnd_wsl hw]
      exact h4.symm.trans hv
  · rintro ⟨a, b⟩ hab
    rcases mem_loverlay hab with h | h
    · exact lget_of_mem_nodup hnd_nl h
    · have hw : lget wsl a = some b := lget_of_mem_nodup hnd_wsl h
      have h3 : lget (loverlay kept wsl) a = some b := lget_loverlay_src_some hnd_wsl hw
      rw [hnl]
      exact h3

/-- The core second-run result: after the pod sync writes the recomputed
labels, an immediate rerun on the written pod recomputes the same map and
the DeepEqual guard suppresses the update — provided no workload selector
uses a synthetic-prefixed key and every service selector uses only such
keys. -/
theorem podSync_second_run_noop {w : World} {reg : Registry} {p : Pod} {wsl : LabelMap}
    (hwf : ((p.labels.getD []).map Prod.fst).Nodup)
    (h1 : ∀ d ∈ w.workloads, ∀ kv ∈ d.selectorLabels, hasWidPref kv.1 = false)
    (h2 : ∀ s ∈ w.services, ∀ kv ∈ s.selector.getD [], hasWidPref kv.1 = true)
    (hdelf : p.deleted = false)
    (hfm : podDesired w reg p = some wsl) :
    (PodController.sync
        { w with pods := updatePodIn w.pods { p with labels := some (recomputedLabels p wsl) } }
        reg (some { p with labels := some (recomputedLabels p wsl) })).updateCount = 0 := by
  have hfm2 : fetchAndMerge w.services p.ns
      (collectServiceKeys (workloadsMatchingLabels w.workloads p.ns p.labels) reg) []
      = some wsl := hfm
  have hnd_wsl : (wsl.map Prod.fst).Nodup :=
    fetchAndMerge_nodup (by simp : ((([] : LabelMap)).map Prod.fst).Nodup) hfm2
  have hnd_kept : (((p.labels.getD []).filter
      (fun kv => !(hasWidPref kv.1) || (lget wsl kv.1).isSome)).map Prod.fst).Nodup :=
    nodup_keys_filter hwf
  have hnd_nl : ((recomputedLabels p wsl).map Prod.fst).Nodup := nodup_keys_loverlay hnd_kept
  have hagree : ∀ k, hasWidPref k = false →
      olget (some (recomputedLabels p wsl)) k = olget p.labels k :=
    fun k hk => (recomputed_olget_nonpref h2 hfm hk).2
  have hmatch : workloadsMatchingLabels w.workloads p.ns (some (recomputedLabels p wsl))
      = workloadsMatchingLabels w.workloads p.ns p.labels := matching_invariant h1 hagree
  have hfm3 : podDesired
      { w with pods := updatePodIn w.pods { p with labels := some (recomputedLabels p wsl) } }
      reg { p with labels := some (recomputedLabels p wsl) } = some wsl := by
    show fetchAndMerge w.services p.ns
      (collectServiceKeys
        (workloadsMatchingLabels w.workloads p.ns (some (recomputedLabels p wsl))) reg) []
      = some wsl
    rw [hmatch]
    exact hfm2
  have hkeep : ∀ kv ∈ recomputedLabels p wsl,
      (!(hasWidPref kv.1) || (lget wsl kv.1).isSome) = true := by
    intro kv hkv
    cases hw : (lget wsl kv.1).isSome with
    | true => simp [hw]
    | false =>
      have hwn : lget wsl kv.1 = none := by
        cases hx : lget wsl kv.1
        · rfl
        · rw [hx] at hw; cases hw
      have hkmem : kv ∈ (p.labels.getD []).filter
          (fun kv => !(hasWidPref kv.1) || (lget wsl kv.1).isSome) :=
        mem_loverlay_src_none hkv hwn
      have h5 := (List.mem_filter.mp hkmem).2
      rw [hwn] at h5
      simpa using h5
  have hfix : recomputedLabels { p with labels := some (recomputedLabels p wsl) } wsl
      = loverlay (recomputedLabels p wsl) wsl := recomputed_fixpoint rfl hkeep
  have hde2 : deepEqualLabels ({ p with labels := some (recomputedLabels p wsl) } : Pod).labels
      (recomputedLabels { p with labels := some (recomputedLabels p wsl) } wsl) = true := by
    show mapEqb (recomputedLabels p wsl)
      (recomputedLabels { p with labels := some (recomputedLabels p wsl) } wsl) = true
    rw [hfix]
    exact mapEqb_overlay_self rfl hnd_nl hnd_wsl
  rw [podSync_eq_of_desired
    (show ({ p with labels := some (recomputedLabels p wsl) } : Pod).deleted = false from hdelf)
    hfm3, if_pos hde2]

/-- C6 (amended): (a) when the pod's label map is non-nil (a nil map with
an empty recomputed set triggers one spurious update, because
reflect.DeepEqual distinguishes nil from empty), a recomputed label set
that is structurally equal to the current one yields zero update calls;
(b) when additionally no workload selector uses a synthetic-prefixed key
and every service selector uses only synthetic-prefixed keys (otherwise
the first write can change which workloads match and the reconciler can
oscillate), two sequential runs on the same pod over the same external
state issue at most one update and the second run issues none. -/
theorem c6_amended_idempotence (w : World) (reg : Registry) (p : Pod)
    (hwf : ((p.labels.getD []).map Prod.fst).Nodup)
    (h1 : ∀ d ∈ w.workloads, ∀ kv ∈ d.selectorLabels, hasWidPref kv.1 = false)
    (h2 : ∀ s ∈ w.services, ∀ kv ∈ s.selector.getD [], hasWidPref kv.1 = true) :
    (∀ l L, p.labels = some l →
      (PodController.sync w reg (some p)).newLabels = some L →
      mapEqb l L = true →
      (PodController.sync w reg (some p)).updateCount = 0) ∧
    ((PodController.sync w reg (some p)).updateCount ≤ 1 ∧
      (PodController.sync { w with pods := (PodController.sync w reg (some p)).pods } reg
          (some (podAfter p (PodController.sync w reg (some p))))).updateCount = 0) := by
  refine ⟨?_, ?_, ?_⟩
  · intro l L hl hL heq
    by_cases hdel : p.deleted = true
    · simp [PodController.sync, hdel]
    · have hdelf : p.deleted = false := by simpa using hdel
      cases hfm : podDesired w reg p with
      | none => simp [PodController.sync, hdelf, hfm]
      | some wsl =>
        rw [podSync_newLabels hdelf hfm] at hL
        injection hL with hL
        have hde : deepEqualLabels p.labels (recomputedLabels p wsl) = true := by
          rw [hl, hL]
          exact heq
        rw [podSync_eq_of_desired hdelf hfm, if_pos hde]
  · by_cases hdel : p.deleted = true
    · simp [PodController.sync, hdel]
    · have hdelf : p.deleted = false := by simpa using hdel
      cases hfm : podDesired w reg p with
      | none => simp [PodController.sync, hdelf, hfm]
      | some wsl =>
        rw [podSync_eq_of_desired hdelf hfm]
        split <;> simp
  · by_cases hdel : p.deleted = true
    · have hs : PodController.sync w reg (some p)
          = { pods := w.pods, newLabels := none, updateCount := 0, ok := true } := by
        simp [PodController.sync, hdel]
      rw [hs]
      show (PodController.sync w reg (some p)).updateCount = 0
      rw [hs]
    · have hdelf : p.deleted = false := by simpa using hdel
      cases hfm : podDesired w reg p with
      | none =>
        have hs : PodController.sync w reg (some p)
            = { pods := w.pods, newLabels := none, updateCount := 0, ok := false } := by
          simp [PodController.sync, hdelf, hfm]
        rw [hs]
        show (PodController.sync w reg (some p)).updateCount = 0
        rw [hs]
      | some wsl =>
        cases hde : deepEqualLabels p.labels (recomputedLabels p wsl) with
        | true =>
          have hs : PodController.sync w reg (some p)
              = { pods := w.pods, newLabels := some (recomputedLabels p wsl),
                  updateCount := 0, ok := true } := by
            rw [podSync_eq_of_desired hdelf hfm, if_pos hde]
          rw [hs]
          show (PodController.sync w reg (some p)).updateCount = 0
          rw [podSync_eq_of_desired hdelf hfm, if_pos hde]
        | false =>
          have hs : PodController.sync w reg (some p)
              = { pods := updatePodIn w.pods { p with labels := some (recomputedLabels p wsl) },
                  newLabels := some (recomputedLabels p wsl), updateCount := 1, ok := true } := by
            rw [podSync_eq_of_desired hdelf hfm, if_neg (by simp [hde])]
          rw [hs]
          show (PodController.sync
              { w with pods :=
                  updatePodIn w.pods ({ p with labels := some (recomputedLabels p wsl) } : Pod) }
              reg (some ({ p with labels := some (recomputedLabels p wsl) } : Pod))).updateCount = 0
          exact podSync_second_run_noop hwf h1 h2 hdelf hfm

/-- C6 (amended) at a concrete conforming state: the post-install scene of
svc1/wl1/p1, where the first run adds the synthetic label and the second
run issues nothing. -/
theorem c6_amended_witness :
    (∀ l L, c5Pod.labels = some l →
      (PodController.sync c5WorldB c5Out.registry (some c5Pod)).newLabels = some L →
      mapEqb l L = true →
      (PodController.sync c5WorldB c5Out.registry (some c5Pod)).updateCount = 0) ∧
    ((PodController.sync c5WorldB c5Out.registry (some c5Pod)).updateCount ≤ 1 ∧
      (PodController.sync
          { c5WorldB with pods := (PodController.sync c5WorldB c5Out.registry (some c5Pod)).pods }
          c5Out.registry
          (some (podAfter c5Pod (PodController.sync c5WorldB c5Out.registry (some c5Pod))))).updateCount
        = 0) :=
  c6_amended_idempotence c5WorldB c5Out.registry c5Pod (by decide) (by decide) (by decide)
